import Mathlib

/-!
Verification development for the RDTI-FILL-Function repository: a shallow
embedding of its validation-and-shaping pipeline (`src/projects.ts` /
`src/validation.ts`, `src/docx.ts`, `src/schemas.ts`, `src/index.ts`) into
Lean 4, together with theorems settling the specification's claims.

JavaScript runtime values that can be `undefined`, `null` or a string are
embedded as the three-constructor type `JStr`; the nullish-coalescing
operator `??` becomes `JStr.coalesce`, JS truthiness of such a value becomes
`JStr.truthy`, and template-literal coercion becomes `jsDisplay`.
External effects (docxtemplater rendering, filesystem writes, template
loading) are parameters of the embedding (`RenderEnv`), so theorems can
quantify over every possible behaviour of those collaborators.
-/

/-- A JavaScript `string | undefined | null` value. -/
inductive JStr where
  | undef
  | null
  | str (s : String)
deriving DecidableEq, Repr

/-- JS nullish coalescing `a ?? b` restricted to string-like values:
the fallback triggers only on `undefined` / `null`, never on `""`. -/
def JStr.coalesce : JStr → JStr → JStr
  | .undef, b => b
  | .null, b => b
  | .str s, _ => .str s

/-- JS truthiness of a string-like value: `undefined`, `null` and `""` are falsy. -/
def JStr.truthy : JStr → Bool
  | .str s => s != ""
  | _ => false

/-- The emptiness test of `ensurePresent` in `src/projects.ts`:
`value === undefined || value === null || value === ''`. -/
def JStr.missing : JStr → Bool
  | .undef => true
  | .null => true
  | .str s => s == ""

/-- JS template-literal coercion of a string-like value (`${v}`). -/
def jsDisplay : JStr → String
  | .undef => "undefined"
  | .null => "null"
  | .str s => s

/-- `TimestampLike` of `src/types.ts` (`createdAt`: seconds + nanoseconds). -/
structure TimestampLike where
  seconds : Int
  nanoseconds : Int
deriving DecidableEq, Repr

/-- `ProjectOwner` of `src/types.ts`. The TS type declares the fields as
`string`, but the validator treats absent values, so each field is a `JStr`. -/
structure ProjectOwner where
  firstName : JStr
  lastName : JStr
  role : JStr
  contactPhoneCountry : JStr
  contactPhoneType : JStr
  phone : JStr
  email : JStr
deriving DecidableEq, Repr

/-- `CoreActivity` of `src/types.ts`. -/
structure CoreActivity where
  name : JStr
  description : JStr
  startDate : JStr
  endDate : JStr
  uncertainties : JStr
  approach : JStr
  intentions : JStr
deriving DecidableEq, Repr

/-- `SupportingActivity` of `src/types.ts`; the `definiition` spelling is
intentional and preserved from the source. -/
structure SupportingActivity where
  name : JStr
  description : JStr
  startDate : JStr
  endDate : JStr
  definiition : JStr
deriving DecidableEq, Repr

/-- `ProjectInput` of `src/types.ts`. Object- and array-valued fields are
`Option`s (`none` = `undefined`/`null`) since the code tests them with
truthiness / `Array.isArray`; string fields are `JStr`. -/
structure ProjectInput where
  uid : JStr
  customerName : JStr
  projectName : JStr
  projectDescription : JStr
  estimatedSpend : JStr
  fundingYes : JStr
  fundingNo : JStr
  SupportingYes : JStr
  SupportingNo : JStr
  name : JStr
  description : JStr
  startDate : JStr
  endDate : JStr
  createdAt : Option TimestampLike
  status : JStr
  companyId : JStr
  anzsrc : JStr
  projectOwner : Option ProjectOwner
  coreActivities : Option (List CoreActivity)
  supportingActivities : Option (List SupportingActivity)
deriving DecidableEq, Repr

/-- Issue severity (`'error' | 'warning'` in `src/types.ts`). -/
inductive Severity where
  | error
  | warning
deriving DecidableEq, Repr

/-- `ValidationIssue` of `src/types.ts`. -/
structure ValidationIssue where
  field : String
  message : String
  type : Severity
deriving DecidableEq, Repr

/-- `ensurePresent` of `src/validation.ts`: pushes one issue
`{field: path, message: "Missing field: " ++ path, type}` when the value is
`undefined`/`null`/`''` (here the caller supplies that emptiness test as a
`Bool`, since the TS function is generic over the runtime value). -/
def ensurePresent (missing : Bool) (path : String) (t : Severity) : List ValidationIssue :=
  if missing then [⟨path, "Missing field: " ++ path, t⟩] else []

/-- The `requiredRootFields` loop of `validateProject`, unrolled in source
order (`uid, name, startDate, endDate, createdAt, status, companyId, anzsrc,
projectOwner, coreActivities, supportingActivities`). Object/array fields are
only "missing" when nullish, since they can never equal `''`. -/
def rootIssues (input : ProjectInput) : List ValidationIssue :=
  ensurePresent input.uid.missing "uid" Severity.error ++
  ensurePresent input.name.missing "name" Severity.error ++
  ensurePresent input.startDate.missing "startDate" Severity.error ++
  ensurePresent input.endDate.missing "endDate" Severity.error ++
  ensurePresent input.createdAt.isNone "createdAt" Severity.error ++
  ensurePresent input.status.missing "status" Severity.error ++
  ensurePresent input.companyId.missing "companyId" Severity.error ++
  ensurePresent input.anzsrc.missing "anzsrc" Severity.error ++
  ensurePresent input.projectOwner.isNone "projectOwner" Severity.error ++
  ensurePresent input.coreActivities.isNone "coreActivities" Severity.error ++
  ensurePresent input.supportingActivities.isNone "supportingActivities" Severity.error

/-- The `requiredOwnerFields` loop of `validateProject` (runs only when an
owner object is present, i.e. truthy). -/
def ownerIssues (input : ProjectInput) : List ValidationIssue :=
  match input.projectOwner with
  | some o =>
    ensurePresent o.firstName.missing "projectOwner.firstName" Severity.error ++
    ensurePresent o.lastName.missing "projectOwner.lastName" Severity.error ++
    ensurePresent o.role.missing "projectOwner.role" Severity.error ++
    ensurePresent o.contactPhoneCountry.missing "projectOwner.contactPhoneCountry" Severity.error ++
    ensurePresent o.contactPhoneType.missing "projectOwner.contactPhoneType" Severity.error ++
    ensurePresent o.phone.missing "projectOwner.phone" Severity.error ++
    ensurePresent o.email.missing "projectOwner.email" Severity.error
  | none => []

/-- The core-activity block of `validateProject`: a non-array or empty
`coreActivities` yields `{field: 'coreActivities', message: 'A core activity
is required'}`; otherwise only the first element's `requiredCoreFields` are
checked with path prefix `coreActivities[0].`. -/
def coreActivityIssues (input : ProjectInput) : List ValidationIssue :=
  match input.coreActivities with
  | some (a :: _) =>
    ensurePresent a.name.missing "coreActivities[0].name" Severity.error ++
    ensurePresent a.description.missing "coreActivities[0].description" Severity.error ++
    ensurePresent a.startDate.missing "coreActivities[0].startDate" Severity.error ++
    ensurePresent a.endDate.missing "coreActivities[0].endDate" Severity.error ++
    ensurePresent a.uncertainties.missing "coreActivities[0].uncertainties" Severity.error ++
    ensurePresent a.approach.missing "coreActivities[0].approach" Severity.error ++
    ensurePresent a.intentions.missing "coreActivities[0].intentions" Severity.error
  | some [] => [⟨"coreActivities", "A core activity is required", Severity.error⟩]
  | none => [⟨"coreActivities", "A core activity is required", Severity.error⟩]

/-- `forEach((activity, idx) => ...)`: explicit index-carrying traversal. -/
def withIndex {α : Type} : Nat → List α → List (Nat × α)
  | _, [] => []
  | i, a :: as => (i, a) :: withIndex (i + 1) as

/-- Field path `supportingActivities[<idx>].<f>`. -/
def suppPath (idx : Nat) (f : String) : String :=
  "supportingActivities[" ++ Nat.repr idx ++ "]." ++ f

/-- Issues of one supporting activity (the `requiredSupportingFields` loop). -/
def suppActivityIssues (idx : Nat) (a : SupportingActivity) : List ValidationIssue :=
  ensurePresent a.name.missing (suppPath idx "name") Severity.error ++
  ensurePresent a.description.missing (suppPath idx "description") Severity.error ++
  ensurePresent a.startDate.missing (suppPath idx "startDate") Severity.error ++
  ensurePresent a.endDate.missing (suppPath idx "endDate") Severity.error ++
  ensurePresent a.definiition.missing (suppPath idx "definiition") Severity.error

/-- The supporting-activities block of `validateProject`: runs only when
`supportingActivities` is an array, over every element with its index. -/
def supportingIssuesOf (input : ProjectInput) : List ValidationIssue :=
  match input.supportingActivities with
  | some acts => (withIndex 0 acts).flatMap (fun p => suppActivityIssues p.1 p.2)
  | none => []

/-- `const descriptionSource = input.description ?? input.projectDescription`. -/
def resolvedDescription (input : ProjectInput) : JStr :=
  input.description.coalesce input.projectDescription

/-- `if (!descriptionSource) issues.push({field: 'description', ...})`. -/
def descriptionIssues (input : ProjectInput) : List ValidationIssue :=
  if (resolvedDescription input).truthy then []
  else [⟨"description", "Missing field: description", Severity.error⟩]

/-- All issues of `validateProject`, in source push order. -/
def projectIssues (input : ProjectInput) : List ValidationIssue :=
  rootIssues input ++ ownerIssues input ++ coreActivityIssues input ++
  supportingIssuesOf input ++ descriptionIssues input

/-- The normalized record built at the end of `validateProject`:
`{...input, description: descriptionSource ?? '', projectDescription:
input.projectDescription ?? descriptionSource ?? ''}`. -/
def normalizedProject (input : ProjectInput) : ProjectInput :=
  { input with
    description := (resolvedDescription input).coalesce (JStr.str ""),
    projectDescription :=
      (input.projectDescription.coalesce (resolvedDescription input)).coalesce (JStr.str "") }

/-- Return type of `validateProject` (`{ project?: ValidatedProject; issues }`). -/
structure ValidateResult where
  project : Option ProjectInput
  issues : List ValidationIssue
deriving DecidableEq, Repr

/-- `validateProject` of `src/validation.ts` (`src/projects.ts`): always
returns a best-effort normalized record plus the issue list. -/
def validateProject (input : ProjectInput) : ValidateResult :=
  ⟨some (normalizedProject input), projectIssues input⟩

/-- Number of error-severity issues of `validateProject input` whose `field`
names `path`. -/
def errorCountAt (input : ProjectInput) (path : String) : Nat :=
  ((validateProject input).issues.filter
    (fun i => i.field == path && i.type == Severity.error)).length

/-- The error-severity issue messages of one record
(`issues.filter(i => i.type === 'error').map(i => i.message)`). -/
def errorMessages (input : ProjectInput) : List String :=
  ((validateProject input).issues.filter (fun i => i.type == Severity.error)).map
    (fun i => i.message)

/-- A JS `string | boolean | undefined | null` value (`type Boolish` in
`src/docx.ts`). -/
inductive Boolish where
  | undef
  | null
  | bool (b : Bool)
  | str (s : String)
deriving DecidableEq, Repr

/-- Embed a string-like value into `Boolish` (the record fields passed to
`formatYesNo` are typed `string | undefined`). -/
def JStr.toBoolish : JStr → Boolish
  | .undef => .undef
  | .null => .null
  | .str s => .str s

/-- `yesStrings` of `src/docx.ts`. -/
def yesStrings : List String := ["yes", "y", "true", "1", "x", "checked", "ok"]

/-- `noStrings` of `src/docx.ts`. -/
def noStrings : List String := ["no", "n", "false", "0"]

/-- ASCII model of JS `String.prototype.trim`'s whitespace class. -/
def isTrimmedSpace (c : Char) : Bool :=
  c == ' ' || c == '\t' || c == '\n' || c == '\r' || c == '\x0b' || c == '\x0c'

/-- JS `value.trim()` (ASCII whitespace model). -/
def jsTrim (s : String) : String :=
  ⟨((s.data.dropWhile isTrimmedSpace).reverse.dropWhile isTrimmedSpace).reverse⟩

/-- JS `value.toLowerCase()` restricted to ASCII letters (sufficient for
membership in the ASCII token sets below). -/
def jsToLower (s : String) : String :=
  ⟨s.data.map (fun c =>
    if c.toNat ≥ 65 && c.toNat ≤ 90 then Char.ofNat (c.toNat + 32) else c)⟩

/-- `parseBoolish` of `src/docx.ts`: booleans pass through; strings are
trimmed, lower-cased and looked up in the affirmative/negative token sets;
everything else is `undefined`. -/
def parseBoolish : Boolish → Option Bool
  | .bool b => some b
  | .str s =>
    let normalized := jsToLower (jsTrim s)
    if yesStrings.contains normalized then some true
    else if noStrings.contains normalized then some false
    else none
  | _ => none

/-- `formatYesNo` of `src/docx.ts`: evaluate `yes`, else invert `no`, else
use the fallback; encode as the decided pair `("YES","")` / `("","NO")` or
the undecided pair `("Yes","No")`. First component is `yesText`, second is
`noText`. -/
def formatYesNo (yes no : Boolish) (fallback : Option Bool) : String × String :=
  let yesParsed := parseBoolish yes
  let noParsed := parseBoolish no
  let isYes : Option Bool :=
    match yesParsed with
    | some b => some b
    | none =>
      match noParsed with
      | some b => some (!b)
      | none => fallback
  match isYes with
  | some true => ("YES", "")
  | some false => ("", "NO")
  | none => ("Yes", "No")

/-- One entry of the `supportingActivity` template list
(`DocxTemplateSupportingActivity` in `src/docx.ts`). -/
structure DocxTemplateSupportingActivity where
  name : JStr
  startDate : JStr
  endDate : JStr
  description : JStr
  definiition : JStr
  ActivityNumber : String
deriving DecidableEq, Repr

/-- `DocxTemplatePayload` of `src/docx.ts`. Fields whose TS value is always
a genuine string (results of `formatYesNo`, `String(idx+1)`) are `String`;
fields that merely pass record values or formatter results through stay
`JStr`. -/
structure DocxTemplatePayload where
  customerName : JStr
  projectName : JStr
  projectDescription : JStr
  estimatedSpend : JStr
  fundingYes : String
  fundingNo : String
  SupportingYes : String
  SupportingNo : String
  startDate : JStr
  endDate : JStr
  anzsrc : JStr
  projectOwner : Option ProjectOwner
  coreActivityName : JStr
  coreActivityStartDate : JStr
  coreActivityEndDate : JStr
  coreActivityDescription : JStr
  coreActivityUncertainties : JStr
  coreActivityApproach : JStr
  coreActivityIntentions : JStr
  supportingActivities : Bool
  supportingActivity : List DocxTemplateSupportingActivity
deriving DecidableEq, Repr

/-- `buildDocxTemplatePayload` of `src/docx.ts`. The date formatter is an
arbitrary injected JS function, embedded as `JStr → JStr`. The TS code
dereferences `project.coreActivities[0]` and `project.supportingActivities
.length/.map`, which throws a `TypeError` when either field is nullish;
that exception is embedded as `none`. -/
def buildDocxTemplatePayload (project : ProjectInput) (format : JStr → JStr) :
    Option DocxTemplatePayload :=
  match project.coreActivities, project.supportingActivities with
  | some cores, some supps =>
    let projectName := project.projectName.coalesce project.name
    let funding := formatYesNo project.fundingYes.toBoolish project.fundingNo.toBoolish none
    let supporting := formatYesNo project.SupportingYes.toBoolish project.SupportingNo.toBoolish
      (some (decide (supps.length > 0)))
    let coreActivity := cores.head?
    some {
      customerName := (project.customerName.coalesce project.companyId).coalesce projectName,
      projectName := projectName,
      projectDescription := project.projectDescription.coalesce project.description,
      estimatedSpend := project.estimatedSpend.coalesce (JStr.str "TBD"),
      fundingYes := funding.1,
      fundingNo := funding.2,
      SupportingYes := supporting.1,
      SupportingNo := supporting.2,
      startDate := format project.startDate,
      endDate := format project.endDate,
      anzsrc := project.anzsrc,
      projectOwner := project.projectOwner,
      coreActivityName :=
        (match coreActivity with | some a => a.name | none => JStr.undef).coalesce (JStr.str ""),
      coreActivityStartDate :=
        match coreActivity with | some a => format a.startDate | none => JStr.str "",
      coreActivityEndDate :=
        match coreActivity with | some a => format a.endDate | none => JStr.str "",
      coreActivityDescription :=
        (match coreActivity with | some a => a.description | none => JStr.undef).coalesce (JStr.str ""),
      coreActivityUncertainties :=
        (match coreActivity with | some a => a.uncertainties | none => JStr.undef).coalesce (JStr.str ""),
      coreActivityApproach :=
        (match coreActivity with | some a => a.approach | none => JStr.undef).coalesce (JStr.str ""),
      coreActivityIntentions :=
        (match coreActivity with | some a => a.intentions | none => JStr.undef).coalesce (JStr.str ""),
      supportingActivities := decide (supps.length > 0),
      supportingActivity := (withIndex 0 supps).map (fun p =>
        { name := p.2.name,
          startDate := format p.2.startDate,
          endDate := format p.2.endDate,
          description := p.2.description,
          definiition := p.2.definiition,
          ActivityNumber := Nat.repr (p.1 + 1) }) }
  | _, _ => none

/-- `z.string().min(1)` of `src/schemas.ts`: a required non-empty string. -/
def zodParseStr1 (v : JStr) : Option String :=
  match v with
  | .str s => if 1 ≤ s.length then some s else none
  | _ => none

/-- `z.string().optional()` of `src/schemas.ts`: `undefined` passes through,
`null` is rejected, any string (including `""`) is accepted. -/
def zodParseOptStr (v : JStr) : Option JStr :=
  match v with
  | .undef => some JStr.undef
  | .null => none
  | .str s => some (JStr.str s)

/-- Modelled from the spec: the body of zod's `.email()` check is
third-party library code not present in this repository; §4.3 of the spec
requires only that the "email field must match a standard email shape".
Standard shape: `local@label.(...).tld` with a non-empty local part over
alphanumerics and `._%+-`, at least two dot-separated domain labels over
alphanumerics and `-`, and a final all-alphabetic label of length ≥ 2. -/
def splitOnChar (sep : Char) : List Char → List (List Char)
  | [] => [[]]
  | c :: cs =>
    let rest := splitOnChar sep cs
    if c == sep then [] :: rest
    else
      match rest with
      | r :: rs => (c :: r) :: rs
      | [] => [[c]]

def zodEmailOk (s : String) : Bool :=
  match splitOnChar '@' s.data with
  | [localPart, domain] =>
    decide (1 ≤ localPart.length) &&
    localPart.all (fun c => c.isAlphanum || c == '.' || c == '_' || c == '%' ||
      c == '+' || c == '-') &&
    (let labels := splitOnChar '.' domain
     decide (2 ≤ labels.length) &&
     labels.all (fun l => decide (1 ≤ l.length) && l.all (fun c => c.isAlphanum || c == '-')) &&
     (match labels.getLast? with
      | some tld => decide (2 ≤ tld.length) && tld.all Char.isAlpha
      | none => false))
  | _ => false

/-- `z.string().email()` of `ProjectOwnerSchema`. -/
def zodParseEmail (v : JStr) : Option String :=
  match v with
  | .str s => if zodEmailOk s then some s else none
  | _ => none

/-- Element-wise parsing of a `z.array(schema)`: succeeds iff every element
parses, returning the parsed elements in order. -/
def zodParseList {α β : Type} (f : α → Option β) : List α → Option (List β)
  | [] => some []
  | a :: as =>
    match f a, zodParseList f as with
    | some b, some bs => some (b :: bs)
    | _, _ => none

/-- `ProjectOwnerSchema` of `src/schemas.ts`. -/
def zodParseOwner (o : ProjectOwner) : Option ProjectOwner :=
  match zodParseStr1 o.firstName, zodParseStr1 o.lastName, zodParseStr1 o.role,
    zodParseStr1 o.contactPhoneCountry, zodParseStr1 o.contactPhoneType,
    zodParseStr1 o.phone, zodParseEmail o.email with
  | some fn, some ln, some ro, some cc, some ct, some ph, some em =>
    some ⟨JStr.str fn, JStr.str ln, JStr.str ro, JStr.str cc, JStr.str ct,
      JStr.str ph, JStr.str em⟩
  | _, _, _, _, _, _, _ => none

/-- `CoreActivitySchema` of `src/schemas.ts`. -/
def zodParseCore (a : CoreActivity) : Option CoreActivity :=
  match zodParseStr1 a.name, zodParseStr1 a.description, zodParseStr1 a.startDate,
    zodParseStr1 a.endDate, zodParseStr1 a.uncertainties, zodParseStr1 a.approach,
    zodParseStr1 a.intentions with
  | some n, some de, some sd, some ed, some un, some ap, some it =>
    some ⟨JStr.str n, JStr.str de, JStr.str sd, JStr.str ed, JStr.str un,
      JStr.str ap, JStr.str it⟩
  | _, _, _, _, _, _, _ => none

/-- `SupportingActivitySchema` of `src/schemas.ts` (with the intentional
`definiition` key). -/
def zodParseSupporting (a : SupportingActivity) : Option SupportingActivity :=
  match zodParseStr1 a.name, zodParseStr1 a.description, zodParseStr1 a.startDate,
    zodParseStr1 a.endDate, zodParseStr1 a.definiition with
  | some n, some de, some sd, some ed, some df =>
    some ⟨JStr.str n, JStr.str de, JStr.str sd, JStr.str ed, JStr.str df⟩
  | _, _, _, _, _ => none

/-- The string-typed fields of `ProjectInputSchema` (required `min(1)`
strings and optional strings), applied to the record; the object-valued
fields are handled in `zodParseProject`. -/
def zodParseRootFields (input : ProjectInput) : Option ProjectInput :=
  match zodParseStr1 input.uid, zodParseStr1 input.name, zodParseStr1 input.startDate,
    zodParseStr1 input.endDate, zodParseStr1 input.status, zodParseStr1 input.companyId,
    zodParseStr1 input.anzsrc with
  | some uid, some name, some sd, some ed, some st, some ci, some an =>
    match zodParseOptStr input.description, zodParseOptStr input.projectDescription,
      zodParseOptStr input.customerName, zodParseOptStr input.projectName,
      zodParseOptStr input.estimatedSpend with
    | some de, some pd, some cn, some pn, some es =>
      match zodParseOptStr input.fundingYes, zodParseOptStr input.fundingNo,
        zodParseOptStr input.SupportingYes, zodParseOptStr input.SupportingNo with
      | some fy, some fno, some sy, some sno =>
        some { input with
          uid := JStr.str uid, name := JStr.str name,
          description := de, projectDescription := pd,
          customerName := cn, projectName := pn,
          estimatedSpend := es,
          fundingYes := fy, fundingNo := fno,
          SupportingYes := sy, SupportingNo := sno,
          startDate := JStr.str sd, endDate := JStr.str ed,
          status := JStr.str st, companyId := JStr.str ci,
          anzsrc := JStr.str an }
      | _, _, _, _ => none
    | _, _, _, _, _ => none
  | _, _, _, _, _, _, _ => none

/-- The base-object parse of `ProjectInputSchema.safeParse` (before the
`.refine`): all string fields, `createdAt` (`TimestampSchema`), the owner,
`z.array(CoreActivitySchema).min(1)` and `z.array(SupportingActivitySchema)`. -/
def zodParseProject (input : ProjectInput) : Option ProjectInput :=
  (zodParseRootFields input).bind (fun rootData =>
  input.createdAt.bind (fun ts =>
  (input.projectOwner.bind zodParseOwner).bind (fun owner =>
  (input.coreActivities.bind (zodParseList zodParseCore)).bind (fun cores =>
  (input.supportingActivities.bind (zodParseList zodParseSupporting)).bind (fun supps =>
  if 1 ≤ cores.length then
    some { rootData with
      createdAt := some ts, projectOwner := some owner,
      coreActivities := some cores, supportingActivities := some supps }
  else none)))))

/-- `validateProjectWithZod` of `src/schemas.ts`: `ProjectInputSchema
.safeParse` — the base object parse followed by the
`.refine(data => data.description || data.projectDescription)` truthiness
check; on success the parsed record. -/
def validateProjectWithZod (input : ProjectInput) : Option ProjectInput :=
  (zodParseProject input).bind (fun d =>
    if d.description.truthy || d.projectDescription.truthy then some d else none)

/-- A record is accepted by the rule-based validator iff `validateProject`
reports no error-severity issue. -/
def ruleAccepts (input : ProjectInput) : Bool :=
  ((validateProject input).issues.filter (fun i => i.type == Severity.error)).isEmpty

/-- A record is accepted by the schema validator iff `validateProjectWithZod`
returns success. -/
def zodAccepts (input : ProjectInput) : Bool :=
  (validateProjectWithZod input).isSome

/-- The top-level input shape of `generateRDTIGADocx`: a bare array, a
wrapper object with a `projects` array, or anything else. -/
inductive ProjectsInput where
  | list (projects : List ProjectInput)
  | payload (projects : List ProjectInput)
  | other
deriving DecidableEq, Repr

/-- `normalizeProjectsInput` of `src/projects.ts`: arrays and wrapper
objects yield their project list; any other shape throws. -/
def normalizeProjectsInput : ProjectsInput → Except String (List ProjectInput)
  | .list ps => .ok ps
  | .payload ps => .ok ps
  | .other => .error "Input must be an array of projects or an object with a projects[] property"

/-- `defaultDocxTemplatePath` of `src/docx.ts` (`path.resolve` makes it
absolute at runtime; embedded as the relative path). -/
def defaultDocxTemplatePath : String :=
  "template/GA-Application-Template-Version-1.61-December-2024 (1).docx"

/-- `path.join(outputDir, name)` (embedded as plain separator concatenation;
no claim depends on path normalization). -/
def pathJoin (dir name : String) : String := dir ++ "/" ++ name

/-- Per-record result of the renderer (`ProjectRenderResult` in
`src/docx.ts`); `projectId` carries `project.uid` as the raw JS value. -/
structure ProjectRenderResult where
  projectId : JStr
  success : Bool
  outputPath : Option String
  errorMsg : Option String
deriving DecidableEq, Repr

/-- Aggregate renderer result (`RenderResult` in `src/docx.ts`). -/
structure RenderResult where
  outputPaths : List String
  results : List ProjectRenderResult
  errors : List String
deriving DecidableEq, Repr

/-- The external collaborators of the renderer: template loading
(`fs.readFileSync`), output-directory creation (`fs.mkdirSync`) and the
per-project docxtemplater render + file write. `Except.error m` is the
thrown exception's message. -/
structure RenderEnv where
  templateLoad : String → Except String Unit
  mkdirStep : String → Except String Unit
  renderStep : ProjectInput → Except String Unit

/-- The body of the per-project `try` block of `renderDocxForProjects`:
build the payload (a nullish `coreActivities`/`supportingActivities` throws
a TypeError, whose JS message is embedded as a fixed string), run the
external render-and-write step, and produce the deterministic output path
`RDTI_GA_{uid}.docx`. -/
def renderOne (env : RenderEnv) (format : JStr → JStr) (outputDir : String)
    (project : ProjectInput) : Except String String :=
  match buildDocxTemplatePayload project format with
  | none => .error "Cannot read properties of undefined"
  | some _ =>
    match env.renderStep project with
    | .error m => .error m
    | .ok _ => .ok (pathJoin outputDir ("RDTI_GA_" ++ jsDisplay project.uid ++ ".docx"))

/-- The per-project loop step of `renderDocxForProjects`: successes append
an output path and a success result; caught exceptions append an error
result and the string `Project {uid}: {message}`. -/
def renderStepFold (env : RenderEnv) (format : JStr → JStr) (outputDir : String)
    (acc : RenderResult) (project : ProjectInput) : RenderResult :=
  match renderOne env format outputDir project with
  | .ok outputPath =>
    { outputPaths := acc.outputPaths ++ [outputPath],
      results := acc.results ++ [⟨project.uid, true, some outputPath, none⟩],
      errors := acc.errors }
  | .error msg =>
    { outputPaths := acc.outputPaths,
      results := acc.results ++ [⟨project.uid, false, none, some msg⟩],
      errors := acc.errors ++ ["Project " ++ jsDisplay project.uid ++ ": " ++ msg] }

/-- `renderDocxForProjects` of `src/docx.ts` (the per-project-recovery
version): throws on an empty project list; loads the template once and
creates the output directory once (each failure is batch-fatal, wrapped in
the `TemplateError` / `FileSystemError` message formats of `src/errors.ts`);
then renders each project, isolating per-project exceptions. -/
def renderDocxForProjects (env : RenderEnv) (templatePath outputDir : String)
    (format : JStr → JStr) (projects : List ProjectInput) : Except String RenderResult :=
  if projects.length = 0 then
    .error "At least one project is required to render DOCX output"
  else
    match env.templateLoad templatePath with
    | .error m => .error ("Failed to load or parse template: " ++ templatePath ++ " - " ++ m)
    | .ok _ =>
      match env.mkdirStep outputDir with
      | .error m => .error ("Failed to mkdir file: " ++ outputDir ++ " - " ++ m)
      | .ok _ => .ok (projects.foldl (renderStepFold env format outputDir) ⟨[], [], []⟩)

/-- `DocxGenerateOptions` of `src/types.ts`. -/
structure DocxGenerateOptions where
  outputDir : Option String
  dateFormat : Option (JStr → JStr)
  templatePath : Option String

/-- `DocxGenerateResult` of `src/types.ts`. -/
structure DocxGenerateResult where
  status : Bool
  docx_path : Option String
  docx_paths : List String
  errors : List String
deriving DecidableEq, Repr

/-- `const projectId = project.uid ?? project.projectName ?? project.name ??
'unknown'` in `generateRDTIGADocx`. -/
def projectIdOf (project : ProjectInput) : JStr :=
  ((project.uid.coalesce project.projectName).coalesce project.name).coalesce (JStr.str "unknown")

/-- One iteration of the validation loop of `generateRDTIGADocx`: a record
whose validation produced error-severity issues (or no record) contributes
its error messages prefixed `{projectId}: `; otherwise the validated record
joins the render list. -/
def collectStep (acc : List ProjectInput × List String) (project : ProjectInput) :
    List ProjectInput × List String :=
  let vr := validateProject project
  let projectErrors := (vr.issues.filter (fun i => i.type == Severity.error)).map
    (fun i => i.message)
  match vr.project with
  | none =>
    (acc.1, acc.2 ++ projectErrors.map (fun m => jsDisplay (projectIdOf project) ++ ": " ++ m))
  | some validated =>
    if projectErrors.length > 0 then
      (acc.1, acc.2 ++ projectErrors.map (fun m => jsDisplay (projectIdOf project) ++ ": " ++ m))
    else
      (acc.1 ++ [validated], acc.2)

/-- The whole validation loop of `generateRDTIGADocx`. -/
def collectValidation (projects : List ProjectInput) : List ProjectInput × List String :=
  projects.foldl collectStep ([], [])

/-- `generateRDTIGADocx` of `src/index.ts`: normalize the input, validate
every record, and — when any validation error was recorded or no record
survived — return the error result without rendering; otherwise render the
surviving records and aggregate paths and errors. -/
def generateRDTIGADocx (env : RenderEnv) (options : DocxGenerateOptions)
    (projectsInput : ProjectsInput) : Except String DocxGenerateResult :=
  match normalizeProjectsInput projectsInput with
  | .error m => .error m
  | .ok projects =>
    let outputDir := options.outputDir.getD "./output"
    let collected := collectValidation projects
    let validProjects := collected.1
    let errs := collected.2
    if errs.length > 0 || validProjects.length = 0 then
      .ok { status := false, docx_path := none, docx_paths := [],
            errors := if errs.length > 0 then errs else ["No valid projects to render"] }
    else
      match renderDocxForProjects env (options.templatePath.getD defaultDocxTemplatePath)
        outputDir (options.dateFormat.getD id) validProjects with
      | .error m => .error m
      | .ok rr =>
        .ok { status := decide (rr.outputPaths.length > 0),
              docx_path := rr.outputPaths.head?,
              docx_paths := rr.outputPaths,
              errors := errs ++ rr.errors }

/-- The complete owner of the repository's `createMinimalProject` test
fixture (`src/__tests__`). -/
def baseOwner : ProjectOwner :=
  { firstName := JStr.str "John", lastName := JStr.str "Doe",
    role := JStr.str "Manager", contactPhoneCountry := JStr.str "+64",
    contactPhoneType := JStr.str "Mobile", phone := JStr.str "021-123-4567",
    email := JStr.str "john@example.com" }

/-- The complete core activity of `createMinimalProject`. -/
def baseCore : CoreActivity :=
  { name := JStr.str "Core Activity 1", description := JStr.str "Core description",
    startDate := JStr.str "2024-01-01", endDate := JStr.str "2024-06-30",
    uncertainties := JStr.str "Some uncertainties", approach := JStr.str "Some approach",
    intentions := JStr.str "Some intentions" }

/-- The complete supporting activity of the repository's tests. -/
def baseSupporting : SupportingActivity :=
  { name := JStr.str "Supporting Activity 1",
    description := JStr.str "Supporting description",
    startDate := JStr.str "2024-01-15", endDate := JStr.str "2024-03-31",
    definiition := JStr.str "Definition text" }

/-- `createMinimalProject()`: the fully-valid base record of the
repository's tests (no supporting activities). -/
def baseProject : ProjectInput :=
  { uid := JStr.str "test-uid", customerName := JStr.undef, projectName := JStr.undef,
    projectDescription := JStr.undef, estimatedSpend := JStr.undef,
    fundingYes := JStr.undef, fundingNo := JStr.undef,
    SupportingYes := JStr.undef, SupportingNo := JStr.undef,
    name := JStr.str "Test Project", description := JStr.str "Test description",
    startDate := JStr.str "2024-01-01", endDate := JStr.str "2024-12-31",
    createdAt := some ⟨1704067200, 0⟩, status := JStr.str "Active",
    companyId := JStr.str "CMP-001", anzsrc := JStr.str "080101",
    projectOwner := some baseOwner, coreActivities := some [baseCore],
    supportingActivities := some [] }

/-- The base record with one complete supporting activity. -/
def baseProjectSupp : ProjectInput :=
  { baseProject with supportingActivities := some [baseSupporting] }

/-- The single-field variants of §8's P1: each required string-valued path
paired with the record builder that replaces exactly that field's value. -/
def stringFieldCases : List (String × (JStr → ProjectInput)) :=
  [ ("uid", fun v => { baseProject with uid := v }),
    ("name", fun v => { baseProject with name := v }),
    ("startDate", fun v => { baseProject with startDate := v }),
    ("endDate", fun v => { baseProject with endDate := v }),
    ("status", fun v => { baseProject with status := v }),
    ("companyId", fun v => { baseProject with companyId := v }),
    ("anzsrc", fun v => { baseProject with anzsrc := v }),
    ("projectOwner.firstName", fun v => { baseProject with projectOwner := some { baseOwner with firstName := v } }),
    ("projectOwner.lastName", fun v => { baseProject with projectOwner := some { baseOwner with lastName := v } }),
    ("projectOwner.role", fun v => { baseProject with projectOwner := some { baseOwner with role := v } }),
    ("projectOwner.contactPhoneCountry", fun v => { baseProject with projectOwner := some { baseOwner with contactPhoneCountry := v } }),
    ("projectOwner.contactPhoneType", fun v => { baseProject with projectOwner := some { baseOwner with contactPhoneType := v } }),
    ("projectOwner.phone", fun v => { baseProject with projectOwner := some { baseOwner with phone := v } }),
    ("projectOwner.email", fun v => { baseProject with projectOwner := some { baseOwner with email := v } }),
    ("coreActivities[0].name", fun v => { baseProject with coreActivities := some [{ baseCore with name := v }] }),
    ("coreActivities[0].description", fun v => { baseProject with coreActivities := some [{ baseCore with description := v }] }),
    ("coreActivities[0].startDate", fun v => { baseProject with coreActivities := some [{ baseCore with startDate := v }] }),
    ("coreActivities[0].endDate", fun v => { baseProject with coreActivities := some [{ baseCore with endDate := v }] }),
    ("coreActivities[0].uncertainties", fun v => { baseProject with coreActivities := some [{ baseCore with uncertainties := v }] }),
    ("coreActivities[0].approach", fun v => { baseProject with coreActivities := some [{ baseCore with approach := v }] }),
    ("coreActivities[0].intentions", fun v => { baseProject with coreActivities := some [{ baseCore with intentions := v }] }),
    ("supportingActivities[0].name", fun v => { baseProjectSupp with supportingActivities := some [{ baseSupporting with name := v }] }),
    ("supportingActivities[0].description", fun v => { baseProjectSupp with supportingActivities := some [{ baseSupporting with description := v }] }),
    ("supportingActivities[0].startDate", fun v => { baseProjectSupp with supportingActivities := some [{ baseSupporting with startDate := v }] }),
    ("supportingActivities[0].endDate", fun v => { baseProjectSupp with supportingActivities := some [{ baseSupporting with endDate := v }] }),
    ("supportingActivities[0].definiition", fun v => { baseProjectSupp with supportingActivities := some [{ baseSupporting with definiition := v }] }) ]

/-- The three ways a string field can be absent per the claims:
omitted (undefined or null) or emptied (`""`). -/
def missingValues : List JStr := [JStr.undef, JStr.null, JStr.str ""]

/-- The object/array-valued required root paths, each with the record that
omits exactly that field. -/
def omittedObjectCases : List (String × ProjectInput) :=
  [ ("createdAt", { baseProject with createdAt := none }),
    ("projectOwner", { baseProject with projectOwner := none }),
    ("coreActivities", { baseProject with coreActivities := none }),
    ("supportingActivities", { baseProject with supportingActivities := none }) ]

/-- Every required path exercised by the P1 family. -/
def allRequiredPaths : List String :=
  stringFieldCases.map (fun pc => pc.1) ++
  ["createdAt", "projectOwner", "coreActivities", "supportingActivities"]

/-- P2 description-fallback variants over the base record. -/
def descNullLegacy : ProjectInput :=
  { baseProject with description := JStr.null, projectDescription := JStr.str "X" }

def descUndefLegacy : ProjectInput :=
  { baseProject with description := JStr.undef, projectDescription := JStr.str "X" }

def descEmptyLegacy : ProjectInput :=
  { baseProject with description := JStr.str "", projectDescription := JStr.str "X" }

def descEmptyEmpty : ProjectInput :=
  { baseProject with description := JStr.str "", projectDescription := JStr.str "" }

def descUndefUndef : ProjectInput :=
  { baseProject with description := JStr.undef, projectDescription := JStr.undef }

/-- The records covered by the cases of §8 (P1 single-field variants over
the repository's own minimal fixture, the P2 description variants, and the
valid base records). -/
def sectionEightCases : List ProjectInput :=
  [baseProject, baseProjectSupp] ++
  stringFieldCases.flatMap (fun pc => missingValues.map pc.2) ++
  (omittedObjectCases.map (fun pc => pc.2)) ++
  [{ baseProject with coreActivities := some [] },
   descNullLegacy, descUndefLegacy, descEmptyLegacy, descEmptyEmpty, descUndefUndef]

/-- The §8 cases on which the two validators actually agree: everything
except the two description-fallback exceptions `descNullLegacy` and
`descEmptyLegacy`. -/
def sectionEightAgreeCases : List ProjectInput :=
  [baseProject, baseProjectSupp] ++
  stringFieldCases.flatMap (fun pc => missingValues.map pc.2) ++
  (omittedObjectCases.map (fun pc => pc.2)) ++
  [{ baseProject with coreActivities := some [] },
   descUndefLegacy, descEmptyEmpty, descUndefUndef]

/-- An environment in which every external collaborator succeeds (template
loads, directory creation and every per-project render/write succeed). -/
def allOkEnv : RenderEnv := ⟨fun _ => .ok (), fun _ => .ok (), fun _ => .ok ()⟩

/-- `generateRDTIGADocx` called with no options (all defaults). -/
def noOptions : DocxGenerateOptions := ⟨none, none, none⟩

/-- P7 batch: the fully valid first record. -/
def p7First : ProjectInput := { baseProject with uid := JStr.str "p1" }

/-- P7 batch: the second record, missing exactly one required field (`name`). -/
def p7Second : ProjectInput := { baseProject with uid := JStr.str "p2", name := JStr.undef }

/-- P7 batch: the fully valid third record. -/
def p7Third : ProjectInput := { baseProject with uid := JStr.str "p3" }

/-- A record failing validation whose `uid` is missing but whose `name` is
present. -/
def noUidProject : ProjectInput := { baseProject with uid := JStr.undef }

/-- A record failing validation with `uid`, `projectName` and `name` all
missing. -/
def noIdProject : ProjectInput :=
  { baseProject with uid := JStr.undef, projectName := JStr.undef, name := JStr.undef }

/-- Error strings one failing record contributes to the aggregate result:
its error messages prefixed with the resolved record identifier. -/
def prefixedErrors (p : ProjectInput) : List String :=
  (errorMessages p).map (fun m => jsDisplay (projectIdOf p) ++ ": " ++ m)

/-- The `definiition` value of the `i`-th supporting activity of a (possibly
absent) supporting-activity list. -/
def suppDefiniitionAt (o : Option (List SupportingActivity)) (i : Nat) : Option JStr :=
  match o with
  | some ss => ss[i]?.map (fun e => e.definiition)
  | none => none

lemma mem_ensurePresent {i : ValidationIssue} {b : Bool} {path : String} {t : Severity}
    (h : i ∈ ensurePresent b path t) : i.field = path := by
  cases b with
  | false => simp [ensurePresent] at h
  | true =>
    simp [ensurePresent] at h
    subst h
    rfl

lemma suppPath_ne_description (idx : Nat) (f : String) : suppPath idx f ≠ "description" := by
  intro h
  have hl := congrArg String.length h
  rw [suppPath] at hl
  simp only [String.length_append] at hl
  have h1 : ("supportingActivities[" : String).length = 21 := rfl
  have h2 : ("]." : String).length = 2 := rfl
  have h3 : ("description" : String).length = 11 := rfl
  omega

lemma field_ne_of_mem_rootIssues {i : ValidationIssue} {input : ProjectInput}
    (h : i ∈ rootIssues input) : i.field ≠ "description" := by
  unfold rootIssues at h
  simp only [List.mem_append] at h
  rcases h with ((((((((((h | h) | h) | h) | h) | h) | h) | h) | h) | h) | h) <;>
    (rw [mem_ensurePresent h]; decide)

lemma field_ne_of_mem_ownerIssues {i : ValidationIssue} {input : ProjectInput}
    (h : i ∈ ownerIssues input) : i.field ≠ "description" := by
  unfold ownerIssues at h
  cases ho : input.projectOwner with
  | none => simp [ho] at h
  | some o =>
    rw [ho] at h
    simp only [List.mem_append] at h
    rcases h with ((((((h | h) | h) | h) | h) | h) | h) <;>
      (rw [mem_ensurePresent h]; decide)

lemma field_ne_of_mem_coreActivityIssues {i : ValidationIssue} {input : ProjectInput}
    (h : i ∈ coreActivityIssues input) : i.field ≠ "description" := by
  unfold coreActivityIssues at h
  cases hc : input.coreActivities with
  | none =>
    rw [hc] at h
    simp only [List.mem_singleton] at h
    subst h
    decide
  | some l =>
    rw [hc] at h
    cases l with
    | nil =>
      simp only [List.mem_singleton] at h
      subst h
      decide
    | cons a rest =>
      simp only [List.mem_append] at h
      rcases h with ((((((h | h) | h) | h) | h) | h) | h) <;>
        (rw [mem_ensurePresent h]; decide)

lemma field_ne_of_mem_suppActivityIssues {i : ValidationIssue} {idx : Nat}
    {a : SupportingActivity} (h : i ∈ suppActivityIssues idx a) :
    i.field ≠ "description" := by
  unfold suppActivityIssues at h
  simp only [List.mem_append] at h
  rcases h with ((((h | h) | h) | h) | h) <;>
    (rw [mem_ensurePresent h]; exact suppPath_ne_description idx _)

lemma field_ne_of_mem_supportingIssuesOf {i : ValidationIssue} {input : ProjectInput}
    (h : i ∈ supportingIssuesOf input) : i.field ≠ "description" := by
  unfold supportingIssuesOf at h
  cases hs : input.supportingActivities with
  | none => simp [hs] at h
  | some acts =>
    rw [hs] at h
    simp only [List.mem_flatMap] at h
    obtain ⟨pr, _, hmem⟩ := h
    exact field_ne_of_mem_suppActivityIssues hmem

lemma filter_eq_nil_of_field_ne {l : List ValidationIssue}
    (h : ∀ i ∈ l, i.field ≠ "description") :
    l.filter (fun i => i.field == "description" && i.type == Severity.error) = [] := by
  rw [List.filter_eq_nil_iff]
  intro i hi
  have hf : (i.field == "description") = false := beq_eq_false_iff_ne.mpr (h i hi)
  simp [hf]

lemma errorCountAt_description (input : ProjectInput) :
    errorCountAt input "description" =
      if (resolvedDescription input).truthy then 0 else 1 := by
  unfold errorCountAt validateProject projectIssues
  simp only [List.filter_append, List.length_append]
  rw [filter_eq_nil_of_field_ne (fun i hi => field_ne_of_mem_rootIssues hi),
    filter_eq_nil_of_field_ne (fun i hi => field_ne_of_mem_ownerIssues hi),
    filter_eq_nil_of_field_ne (fun i hi => field_ne_of_mem_coreActivityIssues hi),
    filter_eq_nil_of_field_ne (fun i hi => field_ne_of_mem_supportingIssuesOf hi)]
  unfold descriptionIssues
  cases ht : (resolvedDescription input).truthy with
  | true => simp [ht]
  | false => simp [ht]

lemma collectStep_snd (acc : List ProjectInput × List String) (p : ProjectInput) :
    (collectStep acc p).2 = acc.2 ++ prefixedErrors p := by
  unfold collectStep prefixedErrors errorMessages
  simp only [validateProject]
  cases hh : (projectIssues p).filter (fun i => i.type == Severity.error) with
  | nil => simp [hh]
  | cons a l => simp [hh]

lemma foldl_collectStep_snd (projects : List ProjectInput) :
    ∀ acc, (projects.foldl collectStep acc).2 = acc.2 ++ projects.flatMap prefixedErrors := by
  induction projects with
  | nil => intro acc; simp
  | cons p ps ih =>
    intro acc
    rw [List.foldl_cons, ih (collectStep acc p), collectStep_snd, List.flatMap_cons,
      List.append_assoc]

lemma withIndex_getElem {α : Type} (l : List α) :
    ∀ (n i : Nat), (withIndex n l)[i]? = l[i]?.map (fun a => (n + i, a)) := by
  induction l with
  | nil => intro n i; simp [withIndex]
  | cons a as ih =>
    intro n i
    cases i with
    | zero => simp [withIndex]
    | succ j =>
      simp only [withIndex, List.getElem?_cons_succ, ih (n + 1) j]
      have harith : n + 1 + j = n + (j + 1) := by omega
      rw [harith]

lemma zodParseList_getElem {α β : Type} (f : α → Option β) :
    ∀ (l : List α) (l' : List β), zodParseList f l = some l' →
      ∀ (i : Nat) (a : α), l[i]? = some a → ∃ b, l'[i]? = some b ∧ f a = some b := by
  intro l
  induction l with
  | nil => intro l' h i a ha; simp at ha
  | cons x xs ih =>
    intro l' h i a ha
    unfold zodParseList at h
    cases hx : f x with
    | none => rw [hx] at h; simp at h
    | some b =>
      rw [hx] at h
      cases hrest : zodParseList f xs with
      | none => rw [hrest] at h; simp at h
      | some bs =>
        rw [hrest] at h
        simp only [Option.some.injEq] at h
        subst h
        cases i with
        | zero =>
          simp only [List.getElem?_cons_zero, Option.some.injEq] at ha
          subst ha
          exact ⟨b, by simp, hx⟩
        | succ j =>
          simp only [List.getElem?_cons_succ] at ha ⊢
          exact ih bs hrest j a ha

lemma zodParseSupporting_definiition {a b : SupportingActivity}
    (h : zodParseSupporting a = some b) {d : String} (hd : a.definiition = JStr.str d) :
    b.definiition = JStr.str d := by
  unfold zodParseSupporting at h
  cases h1 : zodParseStr1 a.name with
  | none => rw [h1] at h; simp at h
  | some n =>
  rw [h1] at h
  cases h2 : zodParseStr1 a.description with
  | none => rw [h2] at h; simp at h
  | some de =>
  rw [h2] at h
  cases h3 : zodParseStr1 a.startDate with
  | none => rw [h3] at h; simp at h
  | some sd =>
  rw [h3] at h
  cases h4 : zodParseStr1 a.endDate with
  | none => rw [h4] at h; simp at h
  | some ed =>
  rw [h4] at h
  cases h5 : zodParseStr1 a.definiition with
  | none => rw [h5] at h; simp at h
  | some df =>
  rw [h5] at h
  simp only [Option.some.injEq] at h
  subst h
  rw [hd] at h5
  unfold zodParseStr1 at h5
  by_cases hlen : 1 ≤ d.length
  · simp only [if_pos hlen, Option.some.injEq] at h5
    subst h5
    rfl
  · simp [if_neg hlen] at h5

/-- C1 (code bug evidence): in a three-record batch whose second record is
missing exactly the required field `name`, `generateRDTIGADocx` — even with
every external render step succeeding — returns `status: 'error'` with an
EMPTY `docx_paths` and the single error entry `"p2: Missing field: name"`:
the first and third records are NOT rendered, because any validation error
triggers the early return before `renderDocxForProjects` is called. The
second conjunct shows the same two valid records do render (producing both
output paths) once the invalid record is removed, so it is precisely the
second record's validation failure that aborts their processing, contrary
to the claim and to the README's "one failure does not block others". -/
theorem c1_validation_failure_blocks_other_records :
    generateRDTIGADocx allOkEnv noOptions (ProjectsInput.list [p7First, p7Second, p7Third])
      = Except.ok ⟨false, none, [], ["p2: Missing field: name"]⟩
    ∧ generateRDTIGADocx allOkEnv noOptions (ProjectsInput.list [p7First, p7Third])
      = Except.ok ⟨true, some "./output/RDTI_GA_p1.docx",
          ["./output/RDTI_GA_p1.docx", "./output/RDTI_GA_p3.docx"], []⟩ :=
  ⟨rfl, rfl⟩

/-- C2 counterexample: the §8/P2 record with `description = ""` and legacy
`projectDescription = "X"` (otherwise fully valid) is rejected by the
rule-based validator (`validateProject` reports an error on `description`)
but accepted by the schema validator (`validateProjectWithZod` succeeds,
since its truthiness refinement falls back to the legacy field), so the two
validators do NOT classify every §8-covered record identically. -/
theorem c2_validator_agreement_counterexample :
    ruleAccepts descEmptyLegacy = false ∧ zodAccepts descEmptyLegacy = true := by
  decide

/-- C2 amended: the two validators agree on every record covered by the §8
cases EXCEPT the two description-fallback cases with a non-empty legacy
field: for `description = null` the rule validator accepts while the schema
validator rejects (zod's optional string rejects `null`), and for
`description = ""` the rule validator rejects while the schema validator
accepts. -/
theorem c2_validator_agreement_amended :
    sectionEightAgreeCases.all (fun r => ruleAccepts r == zodAccepts r) = true
    ∧ (ruleAccepts descNullLegacy = true ∧ zodAccepts descNullLegacy = false)
    ∧ (ruleAccepts descEmptyLegacy = false ∧ zodAccepts descEmptyLegacy = true) := by
  decide

/-- C4 counterexample: a record that omits (leaves `undefined`) exactly the
required root field `coreActivities` receives TWO error-severity issues
naming the path `coreActivities` (the generic root missing-field issue and
the dedicated "A core activity is required" issue), not exactly one as the
claim states. -/
theorem c4_required_field_counterexample :
    errorCountAt { baseProject with coreActivities := none } "coreActivities" = 2 := by
  decide

/-- C4 amended: for every required string-valued path in the record root,
the owner, the first core activity and each supporting activity, omitting
(`undefined`/`null`) or emptying (`""`) exactly that field yields exactly
one error-severity issue naming that path; omitting `createdAt`,
`projectOwner` or `supportingActivities` likewise yields exactly one; an
EMPTY `coreActivities` list yields exactly one, but an OMITTED
`coreActivities` yields two issues naming that path; and a record with
every required field present and non-empty yields no issue naming any of
the paths. -/
theorem c4_required_field_completeness_amended :
    (stringFieldCases.all (fun pc =>
      missingValues.all (fun v => errorCountAt (pc.2 v) pc.1 == 1))) = true
    ∧ errorCountAt { baseProject with createdAt := none } "createdAt" = 1
    ∧ errorCountAt { baseProject with projectOwner := none } "projectOwner" = 1
    ∧ errorCountAt { baseProject with supportingActivities := none } "supportingActivities" = 1
    ∧ errorCountAt { baseProject with coreActivities := some [] } "coreActivities" = 1
    ∧ errorCountAt { baseProject with coreActivities := none } "coreActivities" = 2
    ∧ (allRequiredPaths.all (fun p => errorCountAt baseProjectSupp p == 0)) = true := by
  decide

/-- C5: `formatYesNo` resolves exactly per the claim's interpretation order:
affirmative `yesSignal` (token or `true`) gives `("YES","")`, negative gives
`("","NO")`, otherwise `noSignal` is evaluated the same way and inverted,
otherwise the fallback decides, otherwise the undecided pair `("Yes","No")`;
including the four concrete P5 table rows. -/
theorem c5_boolish_resolution (y n : Boolish) (f : Option Bool) :
    (formatYesNo y n f =
      match parseBoolish y with
      | some true => ("YES", "")
      | some false => ("", "NO")
      | none =>
        match parseBoolish n with
        | some b => if b then ("", "NO") else ("YES", "")
        | none =>
          match f with
          | some true => ("YES", "")
          | some false => ("", "NO")
          | none => ("Yes", "No"))
    ∧ formatYesNo (Boolish.str "yes") Boolish.undef none = ("YES", "")
    ∧ formatYesNo Boolish.undef (Boolish.str "no") none = ("YES", "")
    ∧ formatYesNo Boolish.undef Boolish.undef (some true) = ("YES", "")
    ∧ formatYesNo Boolish.undef Boolish.undef none = ("Yes", "No") := by
  refine ⟨?_, by decide, by decide, by decide, by decide⟩
  cases hy : parseBoolish y with
  | some b => cases b <;> simp [formatYesNo, hy]
  | none =>
    cases hn : parseBoolish n with
    | some b => cases b <;> simp [formatYesNo, hy, hn]
    | none =>
      cases f with
      | none => simp [formatYesNo, hy, hn]
      | some b => cases b <;> simp [formatYesNo, hy, hn]

/-- C8: for every raw input record, `validateProject` returns a non-null
normalized record that equals the input on every field except `description`
and `projectDescription`, which carry the resolved description values
(`description ?? projectDescription ?? ''` and
`projectDescription ?? (description ?? projectDescription) ?? ''`). -/
theorem c8_normalized_record_frame (input : ProjectInput) :
    ∃ p, (validateProject input).project = some p
      ∧ p.uid = input.uid
      ∧ p.customerName = input.customerName
      ∧ p.projectName = input.projectName
      ∧ p.estimatedSpend = input.estimatedSpend
      ∧ p.fundingYes = input.fundingYes
      ∧ p.fundingNo = input.fundingNo
      ∧ p.SupportingYes = input.SupportingYes
      ∧ p.SupportingNo = input.SupportingNo
      ∧ p.name = input.name
      ∧ p.startDate = input.startDate
      ∧ p.endDate = input.endDate
      ∧ p.createdAt = input.createdAt
      ∧ p.status = input.status
      ∧ p.companyId = input.companyId
      ∧ p.anzsrc = input.anzsrc
      ∧ p.projectOwner = input.projectOwner
      ∧ p.coreActivities = input.coreActivities
      ∧ p.supportingActivities = input.supportingActivities
      ∧ p.description = (input.description.coalesce input.projectDescription).coalesce (JStr.str "")
      ∧ p.projectDescription =
          (input.projectDescription.coalesce
            (input.description.coalesce input.projectDescription)).coalesce (JStr.str "") :=
  ⟨normalizedProject input, rfl, rfl, rfl, rfl, rfl, rfl, rfl, rfl, rfl, rfl, rfl, rfl,
    rfl, rfl, rfl, rfl, rfl, rfl, rfl, rfl, rfl⟩

/-- C10: for an empty bare list, or a wrapper whose `projects` list is
empty, `generateRDTIGADocx` does not throw and returns the structured
result `{status: 'error', docx_path: null, docx_paths: [], errors: ["No
valid projects to render"]}` regardless of every external collaborator's
behaviour — in particular the renderer, which (third conjunct) throws on an
empty list, is never invoked. -/
theorem c10_empty_batch (env : RenderEnv) (options : DocxGenerateOptions)
    (templatePath outputDir : String) (format : JStr → JStr) :
    generateRDTIGADocx env options (ProjectsInput.list [])
      = Except.ok ⟨false, none, [], ["No valid projects to render"]⟩
    ∧ generateRDTIGADocx env options (ProjectsInput.payload [])
      = Except.ok ⟨false, none, [], ["No valid projects to render"]⟩
    ∧ renderDocxForProjects env templatePath outputDir format []
      = Except.error "At least one project is required to render DOCX output" :=
  ⟨rfl, rfl, rfl⟩

/-- C3: `validateProject` resolves the description exactly as claimed — a
nullish (`undefined`/`null`) `description` with legacy `projectDescription =
"X"` resolves to `"X"` with no error on `description`; an explicit empty
string never triggers the fallback: it resolves to `""` and reports exactly
one error-severity issue on `description`, even when the legacy field holds
text; and with both fields empty an error on `description` is reported. -/
theorem c3_description_fallback_asymmetry (input : ProjectInput) (s : String) :
    ((input.description = JStr.undef ∨ input.description = JStr.null) →
      input.projectDescription = JStr.str s → s ≠ "" →
      ((validateProject input).project.map (fun p => p.description) = some (JStr.str s)
        ∧ errorCountAt input "description" = 0))
    ∧ (input.description = JStr.str "" → input.projectDescription = JStr.str s →
      ((validateProject input).project.map (fun p => p.description) = some (JStr.str "")
        ∧ errorCountAt input "description" = 1))
    ∧ (input.description = JStr.str "" → input.projectDescription = JStr.str "" →
      errorCountAt input "description" = 1) := by
  refine ⟨?_, ?_, ?_⟩
  · intro hd hpd hs
    have hres : resolvedDescription input = JStr.str s := by
      rcases hd with h | h <;> simp [resolvedDescription, h, hpd, JStr.coalesce]
    constructor
    · simp [validateProject, normalizedProject, hres, JStr.coalesce]
    · rw [errorCountAt_description, hres]
      have : (s != "") = true := bne_iff_ne.mpr hs
      simp [JStr.truthy, this]
  · intro hd hpd
    have hres : resolvedDescription input = JStr.str "" := by
      simp [resolvedDescription, hd, JStr.coalesce]
    constructor
    · simp [validateProject, normalizedProject, hres, JStr.coalesce]
    · rw [errorCountAt_description, hres]
      simp [JStr.truthy]
  · intro hd hpd
    have hres : resolvedDescription input = JStr.str "" := by
      simp [resolvedDescription, hd, JStr.coalesce]
    rw [errorCountAt_description, hres]
    simp [JStr.truthy]

/-- C3 witness: the three branches instantiated at the concrete P2 records
(`description` nullish with legacy `"X"`; `description = ""` with legacy
`"X"`; both empty). -/
theorem c3_description_fallback_asymmetry_witness :
    ((validateProject descUndefLegacy).project.map (fun p => p.description)
        = some (JStr.str "X")
      ∧ errorCountAt descUndefLegacy "description" = 0)
    ∧ ((validateProject descEmptyLegacy).project.map (fun p => p.description)
        = some (JStr.str "")
      ∧ errorCountAt descEmptyLegacy "description" = 1)
    ∧ errorCountAt descEmptyEmpty "description" = 1 :=
  ⟨(c3_description_fallback_asymmetry descUndefLegacy "X").1 (Or.inl rfl) rfl (by decide),
   (c3_description_fallback_asymmetry descEmptyLegacy "X").2.1 rfl rfl,
   (c3_description_fallback_asymmetry descEmptyEmpty "").2.2 rfl rfl⟩

/-- C6: for every record whose `coreActivities`/`supportingActivities` are
present (so the shaper runs), when neither `SupportingYes` nor
`SupportingNo` parses as a boolish signal the shaped payload's supporting
flag is negative `("","NO")` with zero supporting activities and affirmative
`("YES","")` with one or more; and an explicit parseable signal (second and
third conjuncts) takes precedence over that count-based fallback. -/
theorem c6_supporting_flag_default (project : ProjectInput) (format : JStr → JStr)
    (cores : List CoreActivity) (supps : List SupportingActivity)
    (hc : project.coreActivities = some cores)
    (hs : project.supportingActivities = some supps) :
    ((parseBoolish project.SupportingYes.toBoolish = none ∧
        parseBoolish project.SupportingNo.toBoolish = none) →
      (buildDocxTemplatePayload project format).map
          (fun pay => (pay.SupportingYes, pay.SupportingNo))
        = some (if supps.length > 0 then ("YES", "") else ("", "NO")))
    ∧ (∀ b, parseBoolish project.SupportingYes.toBoolish = some b →
      (buildDocxTemplatePayload project format).map
          (fun pay => (pay.SupportingYes, pay.SupportingNo))
        = some (if b then ("YES", "") else ("", "NO")))
    ∧ (∀ b, parseBoolish project.SupportingYes.toBoolish = none →
      parseBoolish project.SupportingNo.toBoolish = some b →
      (buildDocxTemplatePayload project format).map
          (fun pay => (pay.SupportingYes, pay.SupportingNo))
        = some (if b then ("", "NO") else ("YES", ""))) := by
  have hpay : (buildDocxTemplatePayload project format).map
      (fun pay => (pay.SupportingYes, pay.SupportingNo))
      = some (formatYesNo project.SupportingYes.toBoolish project.SupportingNo.toBoolish
          (some (decide (supps.length > 0)))) := by
    simp [buildDocxTemplatePayload, hc, hs]
  refine ⟨?_, ?_, ?_⟩
  · intro hyn
    rw [hpay]
    by_cases hlen : supps.length > 0 <;>
      simp [formatYesNo, hyn.1, hyn.2, hlen]
  · intro b hb
    rw [hpay]
    cases b <;> simp [formatYesNo, hb]
  · intro b hy hb
    rw [hpay]
    cases b <;> simp [formatYesNo, hy, hb]

/-- C6 witness: with no explicit signals the flag is `("","NO")` for the
zero-supporting-activity base record and `("YES","")` for the record with
one supporting activity; with the explicit signal `SupportingYes = "no"`
the flag is `("","NO")` despite one supporting activity. -/
theorem c6_supporting_flag_default_witness :
    (buildDocxTemplatePayload baseProject id).map
        (fun pay => (pay.SupportingYes, pay.SupportingNo)) = some ("", "NO")
    ∧ (buildDocxTemplatePayload baseProjectSupp id).map
        (fun pay => (pay.SupportingYes, pay.SupportingNo)) = some ("YES", "")
    ∧ (buildDocxTemplatePayload { baseProjectSupp with SupportingYes := JStr.str "no" } id).map
        (fun pay => (pay.SupportingYes, pay.SupportingNo)) = some ("", "NO") := by
  refine ⟨?_, ?_, ?_⟩
  · have h := (c6_supporting_flag_default baseProject id [baseCore] [] rfl rfl).1
      ⟨by decide, by decide⟩
    simpa using h
  · have h := (c6_supporting_flag_default baseProjectSupp id [baseCore] [baseSupporting]
      rfl rfl).1 ⟨by decide, by decide⟩
    simpa using h
  · exact (c6_supporting_flag_default { baseProjectSupp with SupportingYes := JStr.str "no" }
      id [baseCore] [baseSupporting] rfl rfl).2.1 false (by decide)

/-- C7 counterexample: a batch whose only record is missing its `uid` (but
has `name = "Test Project"`) produces the error entry
`"Test Project: Missing field: uid"` — the prefix is NOT the literal
`unknown`, because the code falls back through `projectName` and `name`
before using `unknown`. -/
theorem c7_error_prefixing_counterexample :
    generateRDTIGADocx allOkEnv noOptions (ProjectsInput.list [noUidProject])
      = Except.ok ⟨false, none, [], ["Test Project: Missing field: uid"]⟩
    ∧ ¬ ("unknown: Missing field: uid" ∈
        (["Test Project: Missing field: uid"] : List String)) := by
  exact ⟨rfl, by decide⟩

/-- C7 amended: every error string a failing record contributes to
`generateRDTIGADocx`'s aggregate result is its validation message prefixed
with `{id}: `, where the identifier is resolved by the nullish-coalescing
chain `uid ?? projectName ?? name ?? 'unknown'` — so the literal `unknown`
appears only when all three identifier fields are nullish (second
conjunct), and a present `name` is used when `uid` is missing (third
conjunct); an empty-string `uid` is used as-is (fourth conjunct). -/
theorem c7_error_prefixing_amended :
    (∀ projects : List ProjectInput,
      (collectValidation projects).2 = projects.flatMap prefixedErrors)
    ∧ jsDisplay (projectIdOf noIdProject) = "unknown"
    ∧ jsDisplay (projectIdOf noUidProject) = "Test Project"
    ∧ jsDisplay (projectIdOf { baseProject with uid := JStr.str "" }) = "" := by
  refine ⟨?_, rfl, rfl, rfl⟩
  intro projects
  have h := foldl_collectStep_snd projects ([], [])
  simpa [collectValidation] using h

/-- C9: for every record whose payload the shaper builds, a supporting
activity at index `i` whose `definiition` field holds the string `d` yields
the value `d` verbatim under the `definiition` key of the `i`-th element of
the payload's `supportingActivity` list; and when the record passes the
schema validator, the parsed (round-tripped) record's `i`-th supporting
activity still carries `definiition = d` unchanged. -/
theorem c9_definiition_fidelity (project : ProjectInput) (format : JStr → JStr)
    (cores : List CoreActivity) (supps : List SupportingActivity)
    (hc : project.coreActivities = some cores)
    (hs : project.supportingActivities = some supps)
    (i : Nat) (a : SupportingActivity) (ha : supps[i]? = some a)
    (d : String) (hd : a.definiition = JStr.str d)
    (q : ProjectInput) (hq : validateProjectWithZod project = some q) :
    (buildDocxTemplatePayload project format).map
        (fun pay => pay.supportingActivity[i]?.map (fun e => e.definiition))
      = some (some (JStr.str d))
    ∧ suppDefiniitionAt q.supportingActivities i = some (JStr.str d) := by
  constructor
  · simp [buildDocxTemplatePayload, hc, hs, List.getElem?_map, withIndex_getElem, ha, hd]
  · unfold validateProjectWithZod at hq
    cases hz : zodParseProject project with
    | none => rw [hz] at hq; simp at hq
    | some d0 =>
      rw [hz, Option.some_bind] at hq
      by_cases href : (d0.description.truthy || d0.projectDescription.truthy) = true
      · rw [if_pos href] at hq
        simp only [Option.some.injEq] at hq
        subst hq
        unfold zodParseProject at hz
        cases h1 : zodParseRootFields project with
        | none => rw [h1] at hz; simp at hz
        | some rootData =>
        rw [h1, Option.some_bind] at hz
        cases h2 : project.createdAt with
        | none => rw [h2] at hz; simp at hz
        | some ts =>
        rw [h2, Option.some_bind] at hz
        cases h3 : project.projectOwner.bind zodParseOwner with
        | none => rw [h3] at hz; simp at hz
        | some owner =>
        rw [h3, Option.some_bind] at hz
        cases h4 : project.coreActivities.bind (zodParseList zodParseCore) with
        | none => rw [h4] at hz; simp at hz
        | some pcores =>
        rw [h4, Option.some_bind] at hz
        cases h5 : project.supportingActivities.bind (zodParseList zodParseSupporting) with
        | none => rw [h5] at hz; simp at hz
        | some psupps =>
        rw [h5, Option.some_bind] at hz
        by_cases hclen : 1 ≤ pcores.length
        · rw [if_pos hclen] at hz
          simp only [Option.some.injEq] at hz
          subst hz
          rw [hs] at h5
          simp only [Option.some_bind] at h5
          obtain ⟨b, hb, hfb⟩ := zodParseList_getElem zodParseSupporting supps psupps h5 i a ha
          simp [suppDefiniitionAt, hb, zodParseSupporting_definiition hfb hd]
        · rw [if_neg hclen] at hz
          simp at hz
      · rw [if_neg href] at hq
        simp at hq

/-- C9 witness: the record with one supporting activity whose `definiition`
is `"Definition text"`: the shaped payload carries it verbatim at index 0,
and the schema-validated round trip preserves it. -/
theorem c9_definiition_fidelity_witness :
    (buildDocxTemplatePayload baseProjectSupp id).map
        (fun pay => pay.supportingActivity[0]?.map (fun e => e.definiition))
      = some (some (JStr.str "Definition text"))
    ∧ suppDefiniitionAt baseProjectSupp.supportingActivities 0
      = some (JStr.str "Definition text") :=
  c9_definiition_fidelity baseProjectSupp id [baseCore] [baseSupporting] rfl rfl
    0 baseSupporting rfl "Definition text" rfl baseProjectSupp (by decide)
